import Mathlib

/-!
Verification of the upscale-photo-bot core: a shallow embedding of the
user registry (PostgreSQL `users` table), the chat command handlers
(`/stats`, `/export`, `/broadcast`), the web-app payload handler and the
HTTP upscale gateway from `bot.py`, together with theorems about the
behaviour of these operations.
-/

namespace UpscaleBot

/-! ### String helpers

Models of the Python string operations used by `bot.py`
(`str.replace`, `str.strip`, `str.lower`, substring containment via
`in`, `str.startswith`, `str.split`). All are structural so that they
evaluate inside the kernel.
-/

/-- If `needle` occurs at the head of the second list, return the rest
after the match, else `none` (model of matching one occurrence). -/
def dropMatched : List Char → List Char → Option (List Char)
  | [], l => some l
  | _ :: _, [] => none
  | a :: as, b :: bs => if a == b then dropMatched as bs else none

/-- Does `needle` occur at the head of `hay`? -/
def matchesAt (needle hay : List Char) : Bool :=
  (dropMatched needle hay).isSome

/-- Does `needle` occur anywhere in the list? -/
def containsSeq (needle : List Char) : List Char → Bool
  | [] => needle.isEmpty
  | c :: cs => matchesAt needle (c :: cs) || containsSeq needle cs

/-- Fuelled worker for `pyReplace`; fuel bounds the number of steps, one
character of the input is consumed per step, so input length is enough. -/
def replaceFuel (needle repl : List Char) : Nat → List Char → List Char
  | 0, l => l
  | _ + 1, [] => []
  | fuel + 1, c :: cs =>
    match dropMatched needle (c :: cs) with
    | some rest => repl ++ replaceFuel needle repl fuel rest
    | none => c :: replaceFuel needle repl fuel cs

/-- Model of Python `s.replace(needle, repl)`: replace every
non-overlapping occurrence, scanning left to right. -/
def pyReplace (s needle repl : String) : String :=
  if needle.data.isEmpty then s
  else String.mk (replaceFuel needle.data repl.data s.data.length s.data)

/-- Model of Python `s.strip()`: drop whitespace from both ends. -/
def pyStrip (s : String) : String :=
  String.mk (((s.data.dropWhile Char.isWhitespace).reverse.dropWhile Char.isWhitespace).reverse)

/-- Model of Python `s.lower()`. -/
def pyLower (s : String) : String :=
  String.mk (s.data.map Char.toLower)

/-- Model of Python `needle in hay` on strings. -/
def strContainsSub (hay needle : String) : Bool :=
  containsSeq needle.data hay.data

/-- Model of Python `s.startswith(p)`. -/
def pyStartsWith (s p : String) : Bool :=
  matchesAt p.data s.data

/-- Worker for `pySplit`: split a character list at a separator. -/
def splitCore (sep : Char) : List Char → List (List Char)
  | [] => [[]]
  | c :: cs =>
    let rest := splitCore sep cs
    if c == sep then [] :: rest
    else
      match rest with
      | [] => [[c]]
      | g :: gs => (c :: g) :: gs

/-- Model of Python `s.split(sep)` for a one-character separator. -/
def pySplit (s : String) (sep : Char) : List String :=
  (splitCore sep s.data).map (fun l => String.mk l)

/-! ### Data model

One row of the `users` table created by `init_db`. Timestamps are
modelled as integers (seconds). -/

structure UserRow where
  id : Int
  username : Option String
  first_name : Option String
  joined : Int
  active : Bool
deriving DecidableEq, Repr

/-- The registry state: the `users` table, rows in insertion order. -/
structure DB where
  rows : List UserRow
deriving DecidableEq, Repr

/-- One hour, in the time unit of `UserRow.joined`. -/
def hourSec : Int := 3600

/-! ### Registry operations (the five DB functions of `bot.py`) -/

/-- `add_user`: `INSERT ... ON CONFLICT (id) DO UPDATE SET username,
first_name, active = TRUE`. On insert, `joined` defaults to the current
time and `active` to `TRUE`. -/
def add_user (st : DB) (now : Int) (user_id : Int)
    (username first_name : Option String) : DB :=
  if st.rows.any (fun r => r.id == user_id) then
    DB.mk (st.rows.map (fun r =>
      if r.id = user_id then
        { r with username := username, first_name := first_name, active := true }
      else r))
  else
    DB.mk (st.rows ++ [{ id := user_id, username := username,
                         first_name := first_name, joined := now, active := true }])

/-- `get_all_user_ids`: `SELECT id FROM users WHERE active = TRUE`. -/
def get_all_user_ids (st : DB) : List Int :=
  (st.rows.filter (fun r => r.active)).map (fun r => r.id)

/-- `mark_inactive`: `UPDATE users SET active = FALSE WHERE id = %s`. -/
def mark_inactive (st : DB) (user_id : Int) : DB :=
  DB.mk (st.rows.map (fun r =>
    if r.id = user_id then { r with active := false } else r))

/-- The record returned by `get_stats`. -/
structure Stats where
  total : Nat
  new_24h : Nat
  active : Nat
deriving DecidableEq, Repr

/-- `get_stats`: total count, active count, and the count of rows with
`joined > now - 24 hours`. -/
def get_stats (st : DB) (now : Int) : Stats :=
  { total := st.rows.length
    new_24h := (st.rows.filter (fun r => now - 24 * hourSec < r.joined)).length
    active := (st.rows.filter (fun r => r.active)).length }

/-- Insert a row into a list sorted by `joined` descending. -/
def insertJoinedDesc (r : UserRow) : List UserRow → List UserRow
  | [] => [r]
  | x :: xs => if r.joined ≤ x.joined then x :: insertJoinedDesc r xs
               else r :: x :: xs

/-- Sort by `joined` descending (model of `ORDER BY joined DESC`). -/
def sortJoinedDesc : List UserRow → List UserRow
  | [] => []
  | x :: xs => insertJoinedDesc x (sortJoinedDesc xs)

/-- `export_users`: `SELECT ... FROM users ORDER BY joined DESC`. -/
def export_users (st : DB) : List UserRow :=
  sortJoinedDesc st.rows

/-! ### Outbound messages -/

/-- An outbound message sent by a handler through the chat client:
`message.answer` (text) or `message.answer_document`. -/
inductive Response
  | text (body : String)
  | document (filename : String) (content : String) (caption : String)
  | documentBytes (filename : String) (content : List Nat) (caption : String)
deriving DecidableEq, Repr

/-- Result of a command handler: the messages it sent and the registry
state it leaves behind. -/
structure HandlerResult where
  responses : List Response
  db : DB
deriving DecidableEq, Repr

/-! ### `/stats` handler -/

/-- Body of the statistics message built by `cmd_stats`. -/
def statsMessage (s : Stats) : String :=
  "📊 <b>Статистика бота</b>\n\n👥 Всего в базе: <b>" ++ toString s.total ++
  "</b>\n📈 Новых за 24 часа: <b>" ++ toString s.new_24h ++
  "</b>\n✅ Активных: <b>" ++ toString s.active ++ "</b>"

/-- `cmd_stats`: silently returns when `ADMIN_ID` is nonzero and the
caller is not the admin; otherwise answers with the formatted stats. -/
def cmd_stats (adminId callerId : Int) (st : DB) (now : Int) : HandlerResult :=
  if adminId ≠ 0 ∧ callerId ≠ adminId then { responses := [], db := st }
  else { responses := [Response.text (statsMessage (get_stats st now))], db := st }

/-! ### `/export` handler -/

/-- A CSV cell for an optional column (`user['username'] or ''`). -/
def csvField : Option String → String
  | none => ""
  | some s => s

/-- One CSV data row written by `cmd_export`. -/
def csvRow (r : UserRow) : String :=
  toString r.id ++ "," ++ csvField r.username ++ "," ++ csvField r.first_name ++ ","
    ++ toString r.joined ++ "," ++ (if r.active then "True" else "False")

/-- The CSV document written by `cmd_export` (header plus one row per
user, `\r\n` line terminators as in the `csv` module). -/
def exportCsv (users : List UserRow) : String :=
  String.intercalate "\r\n" ("ID,Username,Name,Joined,Active" :: users.map csvRow) ++ "\r\n"

/-- `cmd_export`: same silent privilege gate; otherwise sends the CSV
export of all users as a document. -/
def cmd_export (adminId callerId : Int) (st : DB) (dateStr : String) : HandlerResult :=
  if adminId ≠ 0 ∧ callerId ≠ adminId then { responses := [], db := st }
  else
    { responses := [Response.document ("users_" ++ dateStr ++ ".csv")
        (exportCsv (export_users st))
        ("📁 База пользователей (" ++ toString (export_users st).length ++ " записей)")]
      db := st }

/-! ### Broadcast engine -/

/-- Outcome of one `bot.send_message` delivery attempt: success, or an
exception with its message text. -/
inductive Delivery
  | ok
  | err (reason : String)
deriving DecidableEq, Repr

/-- Whether a delivery attempt succeeded. -/
def Delivery.isOk : Delivery → Bool
  | .ok => true
  | .err _ => false

/-- The failure classification of `cmd_broadcast`:
`"blocked" in str(e).lower() or "deactivated" in str(e).lower()`. -/
def blockedIndication (reason : String) : Bool :=
  strContainsSub (pyLower reason) "blocked" || strContainsSub (pyLower reason) "deactivated"

/-- Whether the delivery attempt to `id` triggers `mark_inactive id`. -/
def deactivatedBy (deliver : Int → Delivery) (id : Int) : Bool :=
  match deliver id with
  | .ok => false
  | .err reason => blockedIndication reason

/-- The broadcast delivery loop: returns `(sent, failed, final registry)`.
On success `sent` is incremented; on failure `failed` is incremented and
the recipient is marked inactive when the reason indicates
blocked/deactivated. -/
def broadcastLoop (deliver : Int → Delivery) : List Int → DB → Nat × Nat × DB
  | [], st => (0, 0, st)
  | id :: rest, st =>
    match deliver id with
    | .ok =>
      let out := broadcastLoop deliver rest st
      (out.1 + 1, out.2.1, out.2.2)
    | .err reason =>
      let st1 := if blockedIndication reason then mark_inactive st id else st
      let out := broadcastLoop deliver rest st1
      (out.1, out.2.1 + 1, out.2.2)

/-- The in-place progress message text. -/
def progressText (attempted total : Nat) : String :=
  "📤 Рассылка... " ++ toString attempted ++ "/" ++ toString total

/-- The final summary text edited into the status message. -/
def summaryText (sent failed : Nat) : String :=
  "✅ <b>Рассылка завершена!</b>\n\n📨 Отправлено: " ++ toString sent ++
  "\n❌ Не доставлено: " ++ toString failed

/-- The sequence of progress edits: one after every 20 attempts. -/
def progressEdits (total : Nat) : List String :=
  (List.range total).filterMap (fun i =>
    if (i + 1) % 20 == 0 then some (progressText (i + 1) total) else none)

/-- Result of one broadcast job. -/
structure BroadcastJobResult where
  snapshot : List Int
  sent : Nat
  failed : Nat
  db : DB
  edits : List String
deriving DecidableEq, Repr

/-- A whole broadcast job: snapshot the active ids, run the loop, emit
progress edits and the final summary edit. -/
def runBroadcastJob (deliver : Int → Delivery) (st : DB) : BroadcastJobResult :=
  let ids := get_all_user_ids st
  let out := broadcastLoop deliver ids st
  { snapshot := ids, sent := out.1, failed := out.2.1, db := out.2.2
    edits := progressEdits ids.length ++ [summaryText out.1 out.2.1] }

/-- The usage-help text answered when the broadcast text is empty. -/
def usageText : String :=
  "📢 <b>Рассылка</b>\n\nИспользование:\n<code>/broadcast Ваше сообщение</code>"

/-- Result of the `/broadcast` handler: answered messages, edits made to
the status message, whether the engine ran, the counters and the final
registry state. -/
structure BroadcastResult where
  responses : List Response
  edits : List String
  engineInvoked : Bool
  sent : Nat
  failed : Nat
  db : DB
deriving DecidableEq, Repr

/-- `cmd_broadcast`: silent privilege gate, then the broadcast text is
computed as `message.text.replace("/broadcast", "").strip()`; empty text
answers the usage help, non-empty text runs the broadcast job. -/
def cmd_broadcast (adminId callerId : Int) (fullText : String)
    (deliver : Int → Delivery) (st : DB) : BroadcastResult :=
  if adminId ≠ 0 ∧ callerId ≠ adminId then
    { responses := [], edits := [], engineInvoked := false, sent := 0, failed := 0, db := st }
  else
    let text := pyStrip (pyReplace fullText "/broadcast" "")
    if text = "" then
      { responses := [Response.text usageText], edits := [], engineInvoked := false,
        sent := 0, failed := 0, db := st }
    else
      let job := runBroadcastJob deliver st
      { responses := [Response.text (progressText 0 job.snapshot.length)],
        edits := job.edits, engineInvoked := true,
        sent := job.sent, failed := job.failed, db := job.db }

/-! ### Web-app payload handler -/

/-- The result of `json.loads` on a web-app payload: a parse failure, or
an object with its optional `action` and `image` fields. -/
inductive WebAppJson
  | malformed
  | obj (action : Option String) (image : Option String)
deriving DecidableEq, Repr

/-- The user-visible error text sent from the `except` block of
`handle_webapp_data`. -/
def webAppErrorText : String :=
  "❌ Ошибка при обработке изображения. Попробуйте ещё раз."

/-- Strip an optional `data:image...` URI marker: if the string starts
with `data:image`, take the part after the first comma (Python
`split(',')[1]`, `none` models the `IndexError` when no comma exists). -/
def stripDataUri (image_base64 : String) : Option String :=
  if pyStartsWith image_base64 "data:image" then (pySplit image_base64 ',').get? 1
  else some image_base64

/-- Result of the web-app payload handler. -/
structure WebAppResult where
  responses : List Response
  db : DB
deriving DecidableEq, Repr

/-- `handle_webapp_data`: on a `send_result` action, strip the data-URI
marker, base64-decode and send the bytes back as a document; any raised
error (JSON parse, missing comma, base64) is caught and answered with
the error text; any other action falls through the `if` silently. The
base64 decoder of the Python standard library is passed in as `b64dec`
(`none` models a raised `binascii.Error`). -/
def handle_webapp_data (b64dec : String → Option (List Nat)) (timeStr : String)
    (payload : WebAppJson) (st : DB) : WebAppResult :=
  match payload with
  | .malformed => { responses := [Response.text webAppErrorText], db := st }
  | .obj action image =>
    if action = some "send_result" then
      match stripDataUri (image.getD "") with
      | none => { responses := [Response.text webAppErrorText], db := st }
      | some payload64 =>
        match b64dec payload64 with
        | none => { responses := [Response.text webAppErrorText], db := st }
        | some image_bytes =>
          { responses := [Response.documentBytes ("upscaled_" ++ timeStr ++ ".png")
              image_bytes "✅ Вот ваше улучшенное изображение!"]
            db := st }
    else { responses := [], db := st }

/-! ### Upscale gateway -/

/-- The JSON body returned by the provider: optional `output_url` and
optional `err` fields. -/
structure ProviderResult where
  output_url : Option String
  err : Option String
deriving DecidableEq, Repr

/-- The HTTP response of the gateway, with the JSON fields it may carry. -/
structure HttpResponse where
  status : Nat
  success : Option Bool
  error : Option String
  output_url : Option String
  image_base64 : Option String
deriving DecidableEq, Repr

/-- The multipart loop of `handle_upscale`: the last part named `image`
wins (`image_data` is overwritten on each match). -/
def lastImagePart (parts : List (String × List Nat)) : Option (List Nat) :=
  parts.foldl (fun acc p => if p.1 = "image" then some p.2 else acc) none

/-- The standard base64 alphabet. -/
def b64Alphabet : List Char :=
  "ABCDEFGHIJKLMNOPQRSTUVWXYZabcdefghijklmnopqrstuvwxyz0123456789+/".data

/-- The base64 digit for a 6-bit value. -/
def b64Char (n : Nat) : Char :=
  b64Alphabet.getD n '='

/-- Base64-encode a byte list, three bytes at a time with padding. -/
def b64encodeList : List Nat → List Char
  | [] => []
  | [a] => [b64Char (a / 4), b64Char (a % 4 * 16), '=', '=']
  | [a, b] => [b64Char (a / 4), b64Char (a % 4 * 16 + b / 16), b64Char (b % 16 * 4), '=']
  | a :: b :: c :: rest =>
    [b64Char (a / 4), b64Char (a % 4 * 16 + b / 16),
     b64Char (b % 16 * 4 + c / 64), b64Char (c % 64)] ++ b64encodeList rest

/-- Model of `base64.b64encode(bytes).decode('utf-8')`. -/
def b64encode (bytes : List Nat) : String :=
  String.mk (b64encodeList bytes)

/-- `handle_upscale`: extract the `image` multipart field; if missing or
empty, answer 400 with an error and never contact the provider;
otherwise forward to the provider (its parsed JSON reply is `provider`,
fetching the output resource is `fetch`) and build the 200 or 500
response. The second component records whether the provider was called. -/
def handle_upscale (parts : List (String × List Nat)) (provider : ProviderResult)
    (fetch : String → List Nat) : HttpResponse × Bool :=
  let image_data := lastImagePart parts
  if image_data = none ∨ image_data = some [] then
    ({ status := 400, success := none, error := some "No image provided",
       output_url := none, image_base64 := none }, false)
  else
    match provider.output_url with
    | some url =>
      ({ status := 200, success := some true, error := none, output_url := some url,
         image_base64 := some ("data:image/png;base64," ++ b64encode (fetch url)) }, true)
    | none =>
      ({ status := 500, success := some false,
         error := some (provider.err.getD "Unknown error"),
         output_url := none, image_base64 := none }, true)

/-! ### Specification-side reading of the broadcast command text

`cmd_broadcast` derives the broadcast text with
`message.text.replace("/broadcast", "").strip()`. The specification
speaks of the event `broadcast(text)`, whose `text` is the argument
written after the command token; the following definition captures that
reading for comparison. -/

/-- The argument text of a broadcast command as the specification reads
it: the part after the leading `/broadcast` token, trimmed. -/
def commandArgText (fullText : String) : String :=
  if pyStartsWith fullText "/broadcast" then pyStrip (String.mk (fullText.data.drop 10))
  else pyStrip fullText

/-! ### Small concrete states used by witnesses and counterexamples -/

/-- An active row with the given id and join time. -/
def rowJoinedAt (i : Int) (t : Int) : UserRow :=
  { id := i, username := none, first_name := none, joined := t, active := true }

/-- A one-row registry. -/
def dbOne : DB := DB.mk [rowJoinedAt 5 0]

/-! ### Helper lemmas -/

lemma insertJoinedDesc_perm (r : UserRow) (l : List UserRow) :
    (insertJoinedDesc r l).Perm (r :: l) := by
  induction l with
  | nil => exact List.Perm.refl _
  | cons x xs ih =>
    by_cases h : r.joined ≤ x.joined
    · simpa [insertJoinedDesc, h] using (ih.cons x).trans (List.Perm.swap r x xs)
    · simp [insertJoinedDesc, h]

lemma sortJoinedDesc_perm (l : List UserRow) : (sortJoinedDesc l).Perm l := by
  induction l with
  | nil => exact List.Perm.refl _
  | cons x xs ih => exact (insertJoinedDesc_perm x (sortJoinedDesc xs)).trans (ih.cons x)

/-! ### Claim theorems -/

/-- C7: `get_stats` returns the total row count, the active row count,
and the count of rows whose join timestamp lies within the trailing
24-hour window from call time; concretely, in a registry with one row
joined 25 hours before the call and one joined 1 hour before, only the
latter counts as new. -/
theorem stats_counts (st : DB) (now : Int) :
    (get_stats st now).total = st.rows.length ∧
    (get_stats st now).active = st.rows.countP (fun r => r.active) ∧
    (get_stats st now).new_24h = st.rows.countP (fun r => now - r.joined < 24 * hourSec) ∧
    get_stats (DB.mk [rowJoinedAt 1 (now - 25 * hourSec), rowJoinedAt 2 (now - hourSec)]) now
      = { total := 2, new_24h := 1, active := 2 } := by
  have harith : ∀ r ∈ st.rows,
      (decide (now - 24 * hourSec < r.joined)) = (decide (now - r.joined < 24 * hourSec)) := by
    intro r _
    exact decide_eq_decide.mpr (by omega)
  refine ⟨rfl, ?_, ?_, ?_⟩
  · simp [get_stats, List.countP_eq_length_filter]
  · simp only [get_stats, List.countP_eq_length_filter]
    rw [List.filter_congr harith]
  · have h1 : ¬(now - 24 * hourSec < now - 25 * hourSec) := by
      simp only [hourSec]; omega
    have h2 : now - 24 * hourSec < now - hourSec := by
      simp only [hourSec]; omega
    simp [get_stats, rowJoinedAt, h1, h2]

/-- C8: `get_all_user_ids` returns a snapshot containing exactly the ids
of the accounts currently flagged active, in insertion order (it is a
sublist of the table's id column in stored order); being a function of
the state it is deterministic within one call. -/
theorem list_active_snapshot (st : DB) :
    (get_all_user_ids st).Sublist (st.rows.map (fun r => r.id)) ∧
    ∀ x : Int, x ∈ get_all_user_ids st ↔ ∃ r, r ∈ st.rows ∧ r.id = x ∧ r.active = true := by
  constructor
  · exact (List.filter_sublist st.rows).map (fun r => r.id)
  · intro x
    simp only [get_all_user_ids, List.mem_map, List.mem_filter]
    constructor
    · rintro ⟨r, ⟨hm, ha⟩, hid⟩
      exact ⟨r, hm, hid, ha⟩
    · rintro ⟨r, hm, hid, ha⟩
      exact ⟨r, ⟨hm, ha⟩, hid⟩

/-- C6: `export_users` returns a full snapshot (a permutation of the
table, hence containing both active and inactive accounts) ordered by
join time descending: inserting rows A, B, C with increasing join times
yields the export order [C, B, A]. -/
theorem export_snapshot_order :
    (∀ st : DB, (export_users st).Perm st.rows) ∧
    (∀ a b c : UserRow, a.joined < b.joined → b.joined < c.joined →
      export_users (DB.mk [a, b, c]) = [c, b, a]) := by
  constructor
  · intro st
    exact sortJoinedDesc_perm st.rows
  · intro a b c hab hbc
    have h1 : b.joined ≤ c.joined := le_of_lt hbc
    have h2 : a.joined ≤ c.joined := le_of_lt (lt_trans hab hbc)
    have h3 : a.joined ≤ b.joined := le_of_lt hab
    simp [export_users, sortJoinedDesc, insertJoinedDesc, h1, h2, h3]

/-- C6 witness: three concrete rows with increasing join times export in
reversed order. -/
theorem export_snapshot_order_witness :
    ((rowJoinedAt 1 10).joined < (rowJoinedAt 2 20).joined ∧
      (rowJoinedAt 2 20).joined < (rowJoinedAt 3 30).joined) ∧
    export_users (DB.mk [rowJoinedAt 1 10, rowJoinedAt 2 20, rowJoinedAt 3 30])
      = [rowJoinedAt 3 30, rowJoinedAt 2 20, rowJoinedAt 1 10] :=
  ⟨⟨by decide, by decide⟩,
    export_snapshot_order.2 (rowJoinedAt 1 10) (rowJoinedAt 2 20) (rowJoinedAt 3 30)
      (by decide) (by decide)⟩

/-- C10: with the default `ADMIN_ID = 0` (environment variable unset),
the privilege check in `/stats`, `/export` and `/broadcast` is skipped:
every caller, whatever its id, executes the privileged handler body and
receives its response. -/
theorem admin_zero_disables_gate (callerId : Int) (st : DB) (now : Int)
    (dateStr fullText : String) (deliver : Int → Delivery) :
    (cmd_stats 0 callerId st now).responses
      = [Response.text (statsMessage (get_stats st now))] ∧
    (cmd_export 0 callerId st dateStr).responses
      = [Response.document ("users_" ++ dateStr ++ ".csv") (exportCsv (export_users st))
          ("📁 База пользователей (" ++ toString (export_users st).length ++ " записей)")] ∧
    (cmd_broadcast 0 callerId fullText deliver st).responses.length = 1 := by
  refine ⟨?_, ?_, ?_⟩
  · simp [cmd_stats]
  · simp [cmd_export]
  · by_cases h : pyStrip (pyReplace fullText "/broadcast" "") = "" <;>
      simp [cmd_broadcast, h]

/-- C2 counterexample: with the configured operator id 0 (the unset
default), a caller with id 5, which differs from the operator id, issues
`/stats` and receives one outbound message, so the silent rejection does
not hold universally. -/
theorem privileged_rejection_counterexample :
    (((5 : Int) == 0) = false) ∧ (cmd_stats 0 5 dbOne 0).responses.length = 1 := by
  constructor
  · decide
  · simp [cmd_stats]

/-- C2 (amended): provided the configured operator id is nonzero, a
caller whose id differs from it receives nothing from `/stats`,
`/export` and `/broadcast`, and the registry is left untouched. -/
theorem privileged_silent_rejection (adminId callerId : Int) (st : DB) (now : Int)
    (dateStr fullText : String) (deliver : Int → Delivery)
    (hA : adminId ≠ 0) (hC : callerId ≠ adminId) :
    (cmd_stats adminId callerId st now).responses = [] ∧
    (cmd_stats adminId callerId st now).db = st ∧
    (cmd_export adminId callerId st dateStr).responses = [] ∧
    (cmd_export adminId callerId st dateStr).db = st ∧
    (cmd_broadcast adminId callerId fullText deliver st).responses = [] ∧
    (cmd_broadcast adminId callerId fullText deliver st).edits = [] ∧
    (cmd_broadcast adminId callerId fullText deliver st).engineInvoked = false ∧
    (cmd_broadcast adminId callerId fullText deliver st).db = st := by
  simp [cmd_stats, cmd_export, cmd_broadcast, hA, hC]

/-- C2 witness: operator id 1, caller id 5. -/
theorem privileged_silent_rejection_witness :
    ((1 : Int) ≠ 0 ∧ (5 : Int) ≠ 1) ∧
    ((cmd_stats 1 5 dbOne 0).responses = [] ∧
     (cmd_stats 1 5 dbOne 0).db = dbOne ∧
     (cmd_export 1 5 dbOne "d").responses = [] ∧
     (cmd_export 1 5 dbOne "d").db = dbOne ∧
     (cmd_broadcast 1 5 "/broadcast hi" (fun _ => Delivery.ok) dbOne).responses = [] ∧
     (cmd_broadcast 1 5 "/broadcast hi" (fun _ => Delivery.ok) dbOne).edits = [] ∧
     (cmd_broadcast 1 5 "/broadcast hi" (fun _ => Delivery.ok) dbOne).engineInvoked = false ∧
     (cmd_broadcast 1 5 "/broadcast hi" (fun _ => Delivery.ok) dbOne).db = dbOne) :=
  ⟨⟨by decide, by decide⟩,
    privileged_silent_rejection 1 5 dbOne 0 "d" "/broadcast hi" (fun _ => Delivery.ok)
      (by decide) (by decide)⟩

/-- C9 counterexample: the operator sends "/broadcast /broadcast"; the
command's argument text is the non-empty "/broadcast", yet the handler
treats the text as empty, answers the usage help and does not invoke the
engine (the code deletes every occurrence of the substring
"/broadcast"). -/
theorem broadcast_text_counterexample :
    ((commandArgText "/broadcast /broadcast" == "") = false) ∧
    (cmd_broadcast 7 7 "/broadcast /broadcast" (fun _ => Delivery.ok) dbOne).engineInvoked
        = false ∧
    (cmd_broadcast 7 7 "/broadcast /broadcast" (fun _ => Delivery.ok) dbOne).responses
        = [Response.text usageText] := by
  decide

/-- C9 (amended): for a caller passing the privilege gate, the handler
derives the broadcast text by deleting every occurrence of the substring
"/broadcast" from the message text and trimming whitespace; if that
derived text is empty it answers the usage help and does not invoke the
engine (leaving the registry untouched), otherwise it invokes the
engine. -/
theorem broadcast_text_gate (adminId callerId : Int) (fullText : String)
    (deliver : Int → Delivery) (st : DB)
    (hgate : ¬(adminId ≠ 0 ∧ callerId ≠ adminId)) :
    (pyStrip (pyReplace fullText "/broadcast" "") = "" →
      (cmd_broadcast adminId callerId fullText deliver st).responses
          = [Response.text usageText] ∧
      (cmd_broadcast adminId callerId fullText deliver st).engineInvoked = false ∧
      (cmd_broadcast adminId callerId fullText deliver st).db = st) ∧
    (pyStrip (pyReplace fullText "/broadcast" "") ≠ "" →
      (cmd_broadcast adminId callerId fullText deliver st).engineInvoked = true) := by
  constructor
  · intro h
    simp [cmd_broadcast, hgate, h]
  · intro h
    simp [cmd_broadcast, hgate, h]

/-- C9 witness: the operator (gate skipped for admin id 0) sends a bare
"/broadcast", whose derived text is empty. -/
theorem broadcast_text_gate_witness :
    (¬((0 : Int) ≠ 0 ∧ (9 : Int) ≠ 0) ∧
      pyStrip (pyReplace "/broadcast" "/broadcast" "") = "") ∧
    ((cmd_broadcast 0 9 "/broadcast" (fun _ => Delivery.ok) dbOne).responses
        = [Response.text usageText] ∧
     (cmd_broadcast 0 9 "/broadcast" (fun _ => Delivery.ok) dbOne).engineInvoked = false ∧
     (cmd_broadcast 0 9 "/broadcast" (fun _ => Delivery.ok) dbOne).db = dbOne) :=
  ⟨⟨by decide, by decide⟩,
    (broadcast_text_gate 0 9 "/broadcast" (fun _ => Delivery.ok) dbOne (by decide)).1
      (by decide)⟩

/-- C4 counterexample: a structurally valid payload whose `action` field
is missing (so its decoding fails in the claim's sense) produces no
outbound message at all, not the "could not process" response the claim
requires. -/
theorem webapp_missing_action_counterexample :
    (handle_webapp_data (fun _ => some []) "t" (WebAppJson.obj none (some "QUJD")) dbOne).responses
      = [] := by
  decide

/-- C4 (amended): the web-app payload handler never mutates the registry
and never crashes; a malformed JSON payload, a missing comma after the
data-URI marker, and a failing base64 decode are all answered with the
"could not process" error text, while a payload whose `action` field is
missing or unrecognized is silently ignored with no response. -/
theorem webapp_decode_paths (b64dec : String → Option (List Nat)) (timeStr : String) (st : DB) :
    (∀ payload, (handle_webapp_data b64dec timeStr payload st).db = st) ∧
    (handle_webapp_data b64dec timeStr WebAppJson.malformed st).responses
        = [Response.text webAppErrorText] ∧
    (∀ action image, action ≠ some "send_result" →
      (handle_webapp_data b64dec timeStr (WebAppJson.obj action image) st).responses = []) ∧
    (∀ image payload64, stripDataUri (image.getD "") = some payload64 →
      b64dec payload64 = none →
      (handle_webapp_data b64dec timeStr (WebAppJson.obj (some "send_result") image) st).responses
        = [Response.text webAppErrorText]) ∧
    (∀ image, stripDataUri (image.getD "") = none →
      (handle_webapp_data b64dec timeStr (WebAppJson.obj (some "send_result") image) st).responses
        = [Response.text webAppErrorText]) := by
  refine ⟨?_, rfl, ?_, ?_, ?_⟩
  · intro payload
    rcases payload with _ | ⟨action, image⟩
    · rfl
    · unfold handle_webapp_data
      dsimp only
      split
      · split
        · rfl
        · split <;> rfl
      · rfl
  · intro action image h
    simp [handle_webapp_data, h]
  · intro image payload64 hs hd
    simp [handle_webapp_data, hs, hd]
  · intro image hs
    simp [handle_webapp_data, hs]

/-- C4 witness: an unrecognized action is ignored silently. -/
theorem webapp_decode_paths_witness :
    ((some "other" : Option String) ≠ some "send_result") ∧
    (handle_webapp_data (fun _ => none) "t" (WebAppJson.obj (some "other") none) dbOne).responses
      = [] :=
  ⟨by decide,
    (webapp_decode_paths (fun _ => none) "t" dbOne).2.2.1 (some "other") none (by decide)⟩

/-- No part of the multipart body named `image` leaves the accumulator
of the extraction loop unchanged. -/
lemma foldl_image_skip (parts : List (String × List Nat)) (acc : Option (List Nat))
    (h : ∀ p ∈ parts, p.1 ≠ "image") :
    parts.foldl (fun acc p => if p.1 = "image" then some p.2 else acc) acc = acc := by
  induction parts generalizing acc with
  | nil => rfl
  | cons q rest ih =>
    have hq : q.1 ≠ "image" := h q (List.mem_cons_self q rest)
    simp only [List.foldl_cons, if_neg hq]
    exact ih acc (fun p hp => h p (List.mem_cons_of_mem q hp))

/-- C5: a POST /upscale request whose multipart body contains no field
named `image` is answered with HTTP 400 carrying an `error` field, and
the provider is never called. -/
theorem upscale_missing_image (parts : List (String × List Nat))
    (provider : ProviderResult) (fetch : String → List Nat)
    (h : ∀ p ∈ parts, p.1 ≠ "image") :
    (handle_upscale parts provider fetch).1.status = 400 ∧
    (handle_upscale parts provider fetch).1.error = some "No image provided" ∧
    (handle_upscale parts provider fetch).2 = false := by
  have hnone : lastImagePart parts = none := foldl_image_skip parts none h
  simp [handle_upscale, hnone]

/-- C5 witness: a body with only a `scale` field. -/
theorem upscale_missing_image_witness :
    (∀ p ∈ [(("scale" : String), ([50] : List Nat))], p.1 ≠ "image") ∧
    ((handle_upscale [("scale", [50])] ⟨none, none⟩ (fun _ => [])).1.status = 400 ∧
     (handle_upscale [("scale", [50])] ⟨none, none⟩ (fun _ => [])).1.error
        = some "No image provided" ∧
     (handle_upscale [("scale", [50])] ⟨none, none⟩ (fun _ => [])).2 = false) :=
  ⟨by decide, upscale_missing_image [("scale", [50])] ⟨none, none⟩ (fun _ => []) (by decide)⟩

/-! ### Lemmas about `add_user` (for C3) -/

/-- The conflict-update branch of `add_user` does not change how many
rows carry the given id. -/
lemma filter_upsert_map_len (l : List UserRow) (uid : Int) (hN nN : Option String) :
    ((l.map (fun r => if r.id = uid then
        { r with username := hN, first_name := nN, active := true } else r)).filter
      (fun r => r.id == uid)).length
    = (l.filter (fun r => r.id == uid)).length := by
  induction l with
  | nil => rfl
  | cons x xs ih =>
    by_cases h : x.id = uid <;> simp [List.filter_cons, h, ih]

/-- Finding the row with the given id after the conflict-update branch
of `add_user` is finding it before and patching it. -/
lemma find_upsert_map (l : List UserRow) (uid : Int) (hN nN : Option String) :
    (l.map (fun r => if r.id = uid then
        { r with username := hN, first_name := nN, active := true } else r)).find?
      (fun r => r.id == uid)
    = (l.find? (fun r => r.id == uid)).map (fun r =>
        { r with username := hN, first_name := nN, active := true }) := by
  induction l with
  | nil => rfl
  | cons x xs ih =>
    by_cases h : x.id = uid
    · simp only [List.map_cons]
      rw [if_pos h]
      rw [List.find?_cons_of_pos _ (by simp [h]), List.find?_cons_of_pos _ (by simp [h])]
      simp
    · simp only [List.map_cons]
      rw [if_neg h]
      rw [List.find?_cons_of_neg _ (by simp [h]), List.find?_cons_of_neg _ (by simp [h])]
      exact ih

/-- After `add_user st t uid _ _`, exactly one row carries id `uid`,
provided the primary-key invariant (at most one row per id) held. -/
lemma add_user_filter_len (st : DB) (t uid : Int) (hN nN : Option String)
    (hinv : (st.rows.filter (fun r => r.id == uid)).length ≤ 1) :
    ((add_user st t uid hN nN).rows.filter (fun r => r.id == uid)).length = 1 := by
  unfold add_user
  by_cases hex : st.rows.any (fun r => r.id == uid) = true
  · rw [if_pos hex]
    dsimp only
    rw [filter_upsert_map_len]
    rcases List.any_eq_true.mp hex with ⟨x, hx, hpx⟩
    have hmem : x ∈ st.rows.filter (fun r => r.id == uid) := List.mem_filter.mpr ⟨hx, hpx⟩
    have hpos : 0 < (st.rows.filter (fun r => r.id == uid)).length :=
      List.length_pos.mpr (List.ne_nil_of_mem hmem)
    omega
  · rw [if_neg hex]
    dsimp only
    rw [List.filter_append]
    have hnil : st.rows.filter (fun r => r.id == uid) = [] := by
      rw [List.filter_eq_nil_iff]
      intro a ha hpa
      exact hex (List.any_eq_true.mpr ⟨a, ha, hpa⟩)
    simp [hnil]

/-- C3: calling `add_user` twice with the same id and different
handle/name values leaves exactly one row for that id, and that row
carries the values of the second call with reachability active
(last-writer-wins), assuming the primary-key invariant in the starting
state. -/
theorem upsert_last_writer_wins (st : DB) (t1 t2 uid : Int) (h1 n1 h2 n2 : Option String)
    (hinv : (st.rows.filter (fun r => r.id == uid)).length ≤ 1) :
    (((add_user (add_user st t1 uid h1 n1) t2 uid h2 n2).rows.filter
        (fun r => r.id == uid)).length = 1) ∧
    ∃ r, (add_user (add_user st t1 uid h1 n1) t2 uid h2 n2).rows.find?
          (fun r => r.id == uid) = some r ∧
        r.username = h2 ∧ r.first_name = n2 ∧ r.active = true := by
  have len1 : ((add_user st t1 uid h1 n1).rows.filter (fun r => r.id == uid)).length = 1 :=
    add_user_filter_len st t1 uid h1 n1 hinv
  have hmem : ∃ x ∈ (add_user st t1 uid h1 n1).rows, (x.id == uid) = true := by
    rcases List.exists_mem_of_length_pos (l := (add_user st t1 uid h1 n1).rows.filter
        (fun r => r.id == uid)) (by omega) with ⟨x, hx⟩
    exact ⟨x, (List.mem_filter.mp hx).1, (List.mem_filter.mp hx).2⟩
  have hany : (add_user st t1 uid h1 n1).rows.any (fun r => r.id == uid) = true :=
    List.any_eq_true.mpr (by rcases hmem with ⟨x, hx, hpx⟩; exact ⟨x, hx, hpx⟩)
  constructor
  · conv_lhs => rw [add_user, if_pos hany]
    rw [filter_upsert_map_len]
    exact len1
  · conv in (add_user (add_user st t1 uid h1 n1) t2 uid h2 n2) => rw [add_user, if_pos hany]
    rw [find_upsert_map]
    have hsome : ((add_user st t1 uid h1 n1).rows.find? (fun r => r.id == uid)).isSome := by
      rw [List.find?_isSome]
      rcases hmem with ⟨x, hx, hpx⟩
      exact ⟨x, hx, hpx⟩
    rcases Option.isSome_iff_exists.mp hsome with ⟨r0, hr0⟩
    rw [hr0]
    exact ⟨_, rfl, rfl, rfl, rfl⟩

/-- C3 witness: a one-row registry upserted twice with id 5. -/
theorem upsert_last_writer_wins_witness :
    ((dbOne.rows.filter (fun r => r.id == 5)).length ≤ 1) ∧
    ((((add_user (add_user dbOne 1 5 (some "a") (some "A")) 2 5 (some "b") (some "B")).rows.filter
        (fun r => r.id == 5)).length = 1) ∧
     ∃ r, (add_user (add_user dbOne 1 5 (some "a") (some "A")) 2 5 (some "b") (some "B")).rows.find?
          (fun r => r.id == 5) = some r ∧
        r.username = some "b" ∧ r.first_name = some "B" ∧ r.active = true) :=
  ⟨by decide, upsert_last_writer_wins dbOne 1 2 5 (some "a") (some "A") (some "b") (some "B")
    (by decide)⟩

/-! ### Lemmas about the broadcast loop (for C1) -/

/-- The ids of the snapshot whose delivery fails. -/
def failedIdsOf (deliver : Int → Delivery) (st : DB) : List Int :=
  (get_all_user_ids st).filter (fun id => !(deliver id).isOk)

lemma broadcastLoop_sent (deliver : Int → Delivery) (ids : List Int) (st : DB) :
    (broadcastLoop deliver ids st).1 = (ids.filter (fun id => (deliver id).isOk)).length := by
  induction ids generalizing st with
  | nil => rfl
  | cons id rest ih =>
    cases h : deliver id with
    | ok => simp [broadcastLoop, h, List.filter_cons, Delivery.isOk, ih]
    | err reason => simp [broadcastLoop, h, List.filter_cons, Delivery.isOk, ih]

lemma broadcastLoop_failed (deliver : Int → Delivery) (ids : List Int) (st : DB) :
    (broadcastLoop deliver ids st).2.1
      = (ids.filter (fun id => !(deliver id).isOk)).length := by
  induction ids generalizing st with
  | nil => rfl
  | cons id rest ih =>
    cases h : deliver id with
    | ok => simp [broadcastLoop, h, List.filter_cons, Delivery.isOk, ih]
    | err reason => simp [broadcastLoop, h, List.filter_cons, Delivery.isOk, ih]

/-- Splitting a list's length by a predicate. -/
lemma length_filter_split {α} (p : α → Bool) (l : List α) :
    (l.filter p).length + (l.filter (fun a => !(p a))).length = l.length := by
  induction l with
  | nil => rfl
  | cons a l ih =>
    cases h : p a <;> simp [List.filter_cons, h, ← ih] <;> omega

/-- The registry left by the broadcast loop: every row whose id was
delivered to with a blocked/deactivated failure is flipped inactive, all
other rows are untouched. -/
lemma broadcastLoop_db (deliver : Int → Delivery) (ids : List Int) (st : DB) :
    (broadcastLoop deliver ids st).2.2 =
      DB.mk (st.rows.map (fun r =>
        if ids.any (fun i => i == r.id && deactivatedBy deliver i) then
          { r with active := false } else r)) := by
  induction ids generalizing st with
  | nil =>
    cases st with
    | mk rows => simp [broadcastLoop]
  | cons id rest ih =>
    cases h : deliver id with
    | ok =>
      have hd : deactivatedBy deliver id = false := by simp [deactivatedBy, h]
      simp only [broadcastLoop, h]
      rw [ih]
      have hfun : (fun r : UserRow =>
            if rest.any (fun i => i == r.id && deactivatedBy deliver i) then
              { r with active := false } else r)
          = (fun r : UserRow =>
            if (id :: rest).any (fun i => i == r.id && deactivatedBy deliver i) then
              { r with active := false } else r) := by
        funext r
        simp [List.any_cons, hd]
      rw [hfun]
    | err reason =>
      have hd : deactivatedBy deliver id = blockedIndication reason := by
        simp [deactivatedBy, h]
      by_cases hb : blockedIndication reason = true
      · simp only [broadcastLoop, h, hb, if_pos]
        rw [ih]
        unfold mark_inactive
        dsimp only
        rw [List.map_map]
        have hfun : ((fun r : UserRow =>
              if rest.any (fun i => i == r.id && deactivatedBy deliver i) then
                { r with active := false } else r)
            ∘ (fun r : UserRow => if r.id = id then { r with active := false } else r))
            = (fun r : UserRow =>
              if (id :: rest).any (fun i => i == r.id && deactivatedBy deliver i) then
                { r with active := false } else r) := by
          funext r
          by_cases hid : r.id = id
          · have hbeq : (id == r.id) = true := by simp [hid]
            simp only [Function.comp, if_pos hid, List.any_cons, hbeq, hd, hb,
              Bool.true_and, Bool.true_or, if_true]
            have : ({ r with active := false } : UserRow).id = r.id := rfl
            by_cases h2 : rest.any (fun i => i == ({ r with active := false } : UserRow).id
                && deactivatedBy deliver i) = true
            · rw [if_pos h2]
            · rw [if_neg h2]
          · have hbeq : (id == r.id) = false := by
              simp [BEq.beq]
              omega
            simp only [Function.comp, if_neg hid, List.any_cons, hbeq, hd,
              Bool.false_and, Bool.false_or]

        rw [hfun]
      · have hb2 : blockedIndication reason = false := by
          cases hbv : blockedIndication reason
          · rfl
          · exact absurd hbv hb
        simp only [broadcastLoop, h, hb2, Bool.false_eq_true, if_neg, if_false]
        rw [ih]
        have hfun : (fun r : UserRow =>
              if rest.any (fun i => i == r.id && deactivatedBy deliver i) then
                { r with active := false } else r)
            = (fun r : UserRow =>
              if (id :: rest).any (fun i => i == r.id && deactivatedBy deliver i) then
                { r with active := false } else r) := by
          funext r
          simp [List.any_cons, hd, hb2]
        rw [hfun]

/-- A delivery is `ok` exactly when `isOk` says so. -/
lemma isOk_iff (d : Delivery) : d.isOk = true ↔ d = Delivery.ok := by
  cases d <;> simp [Delivery.isOk]

/-- C1: for a broadcast job where delivery to the ids of
`failedIdsOf deliver st` fails with a blocked/deactivated reason and
every other delivery succeeds, the job ends with
`sent = N - number of failures` and `failed = number of failures`, every
failing id is flagged inactive in the registry, every other snapshot id
remains active, and the final summary edit reports those counts. -/
theorem broadcast_counters (deliver : Int → Delivery) (st : DB)
    (hout : ∀ id ∈ get_all_user_ids st,
        deliver id = Delivery.ok ∨ deactivatedBy deliver id = true) :
    (runBroadcastJob deliver st).sent
        = (get_all_user_ids st).length - (failedIdsOf deliver st).length ∧
    (runBroadcastJob deliver st).failed = (failedIdsOf deliver st).length ∧
    (∀ r ∈ (runBroadcastJob deliver st).db.rows,
        r.id ∈ failedIdsOf deliver st → r.active = false) ∧
    (∀ id ∈ get_all_user_ids st, id ∉ failedIdsOf deliver st →
        ∃ r ∈ (runBroadcastJob deliver st).db.rows, r.id = id ∧ r.active = true) ∧
    (runBroadcastJob deliver st).edits.getLast?
        = some (summaryText
            ((get_all_user_ids st).length - (failedIdsOf deliver st).length)
            (failedIdsOf deliver st).length) := by
  have hsplit := length_filter_split (fun id => (deliver id).isOk) (get_all_user_ids st)
  have hsent : (runBroadcastJob deliver st).sent
      = (get_all_user_ids st).length - (failedIdsOf deliver st).length := by
    simp only [runBroadcastJob]
    rw [broadcastLoop_sent]
    simp only [failedIdsOf]
    omega
  have hfailed : (runBroadcastJob deliver st).failed = (failedIdsOf deliver st).length := by
    simp only [runBroadcastJob]
    rw [broadcastLoop_failed]
    rfl
  refine ⟨hsent, hfailed, ?_, ?_, ?_⟩
  · intro r hr hrS
    simp only [runBroadcastJob] at hr
    rw [broadcastLoop_db] at hr
    dsimp only at hr
    rcases List.mem_map.mp hr with ⟨r0, hr0, hgr⟩
    rcases List.mem_filter.mp hrS with ⟨hidmem, hnok⟩
    have hnok2 : ¬((deliver r.id).isOk = true) := by
      simp only [Bool.not_eq_true'] at hnok
      simp [hnok]
    have hdeact : deactivatedBy deliver r.id = true := by
      rcases hout r.id hidmem with hok | hd
      · exact absurd ((isOk_iff (deliver r.id)).mpr hok) hnok2
      · exact hd
    by_cases hcond : (get_all_user_ids st).any
        (fun i => i == r0.id && deactivatedBy deliver i) = true
    · rw [if_pos hcond] at hgr
      rw [← hgr]
    · rw [if_neg hcond] at hgr
      subst hgr
      exact absurd (List.any_eq_true.mpr
        ⟨r0.id, hidmem, by simp [hdeact]⟩) hcond
  · intro id hid hnS
    have hok : (deliver id).isOk = true := by
      by_cases h : (deliver id).isOk = true
      · exact h
      · refine absurd ?_ hnS
        unfold failedIdsOf
        refine List.mem_filter.mpr ⟨hid, ?_⟩
        simp only [Bool.not_eq_true] at h
        simp [h]
    have hdeact : deactivatedBy deliver id = false := by
      have hok2 := (isOk_iff (deliver id)).mp hok
      simp [deactivatedBy, hok2]
    simp only [get_all_user_ids] at hid
    rcases List.mem_map.mp hid with ⟨r0, hr0f, hr0id⟩
    rcases List.mem_filter.mp hr0f with ⟨hr0mem, hr0act⟩
    have hcond : ¬((get_all_user_ids st).any
        (fun i => i == r0.id && deactivatedBy deliver i) = true) := by
      rw [List.any_eq_true]
      rintro ⟨i, hi, hconj⟩
      have hieq : i = r0.id := by
        have := hconj
        simp only [Bool.and_eq_true, beq_iff_eq] at this
        exact this.1
      have hideact : deactivatedBy deliver i = true := by
        simp only [Bool.and_eq_true] at hconj
        exact hconj.2
      rw [hieq, hr0id] at hideact
      simp [hideact] at hdeact
    refine ⟨r0, ?_, hr0id, by simpa using hr0act⟩
    simp only [runBroadcastJob]
    rw [broadcastLoop_db]
    dsimp only
    refine List.mem_map.mpr ⟨r0, hr0mem, ?_⟩
    simp only [if_neg hcond]
  · simp only [runBroadcastJob]
    rw [List.getLast?_concat]
    rw [broadcastLoop_sent, broadcastLoop_failed]
    simp only [failedIdsOf]
    have harith : (List.filter (fun id => (deliver id).isOk) (get_all_user_ids st)).length
        = (get_all_user_ids st).length
          - (List.filter (fun id => !(deliver id).isOk) (get_all_user_ids st)).length := by
      omega
    rw [harith]

/-- The delivery oracle of the C1 witness: id 2 is blocked, everyone
else receives the message. -/
def deliverW : Int → Delivery :=
  fun id => if id = 2 then Delivery.err "Forbidden: bot was blocked by the user"
            else Delivery.ok

/-- The registry of the C1 witness: four active accounts. -/
def dbFour : DB :=
  DB.mk [rowJoinedAt 1 10, rowJoinedAt 2 20, rowJoinedAt 3 30, rowJoinedAt 4 40]

/-- C1 witness: four active accounts, delivery to id 2 raises a
"blocked" condition, all others succeed. -/
theorem broadcast_counters_witness :
    (∀ id ∈ get_all_user_ids dbFour,
        deliverW id = Delivery.ok ∨ deactivatedBy deliverW id = true) ∧
    ((runBroadcastJob deliverW dbFour).sent
        = (get_all_user_ids dbFour).length - (failedIdsOf deliverW dbFour).length ∧
     (runBroadcastJob deliverW dbFour).failed = (failedIdsOf deliverW dbFour).length ∧
     (∀ r ∈ (runBroadcastJob deliverW dbFour).db.rows,
        r.id ∈ failedIdsOf deliverW dbFour → r.active = false) ∧
     (∀ id ∈ get_all_user_ids dbFour, id ∉ failedIdsOf deliverW dbFour →
        ∃ r ∈ (runBroadcastJob deliverW dbFour).db.rows, r.id = id ∧ r.active = true) ∧
     (runBroadcastJob deliverW dbFour).edits.getLast?
        = some (summaryText
            ((get_all_user_ids dbFour).length - (failedIdsOf deliverW dbFour).length)
            (failedIdsOf deliverW dbFour).length)) :=
  ⟨by decide, broadcast_counters deliverW dbFour (by decide)⟩

end UpscaleBot
